import Mathlib

/-!
Verification of the feedforward neural-network engine (Network.js, Layer.js,
ACTIVATION.js) against its natural-language specification.

Numbers are modelled as exact rationals (or reals for the exp-based
activation functions); JS `undefined` propagating through arithmetic is
modelled with `Option`.  `Neuron.js`, `Initialize.js` and `Error.js` are not
part of the provided sources; where their behaviour is needed it is modelled
from the spec and marked as such.  The pseudo-random weight produced by the
weight initializer is modelled as an explicit parameter `init : fan-in to
weight`, since only the presence and count of connections matter for the
claims below.
-/

set_option maxHeartbeats 1000000

namespace Anny

/-- A weighted directed edge between two neurons (spec section 3).  Source and
target neurons are referenced by their positional index in the source layer
and the target layer respectively, as the spec's design notes recommend for
an embedding without cyclic pointers.  In JS one shared object is registered
both as `outgoing` on the source and `incoming` on the target; here the two
registrations carry equal data. -/
structure Connection where
  weight : ℚ
  source : ℕ
  target : ℕ

/-- Modelled from the spec (section 4.5; Neuron.js is not in src): a neuron
holds its activation value, error delta, bias flag, incoming and outgoing
connections, and its activation function. -/
structure Neuron where
  isBias : Bool
  activationValue : ℚ
  delta : ℚ
  incoming : List Connection
  outgoing : List Connection
  activationFn : ℚ → ℚ

/-- A fresh neuron, as produced by `new Neuron()` in the Layer constructor. -/
def newNeuron (fn : ℚ → ℚ) : Neuron :=
  { isBias := false, activationValue := 0, delta := 0,
    incoming := [], outgoing := [], activationFn := fn }

instance : Inhabited Neuron := ⟨newNeuron (fun x => x)⟩

/-- A Layer is an ordered list of neurons (Layer.js, constructor). -/
structure Layer where
  neurons : List Neuron

instance : Inhabited Layer := ⟨⟨[]⟩⟩

/-- Indexed map, used to model lodash `_.map(xs, (x, i) => ...)`. -/
def mapIdxFrom {α β : Type} (f : ℕ → α → β) : ℕ → List α → List β
  | _, [] => []
  | i, a :: as => f i a :: mapIdxFrom f (i + 1) as

/-- Layer constructor (Layer.js lines 13-25): `numNeurons` fresh neurons,
plus one bias neuron appended last when `addBias` is set.  The neurons'
activation function comes from Neuron.js (not in src) and is passed
explicitly here. -/
def Layer.construct (numNeurons : ℕ) (addBias : Bool) (fn : ℚ → ℚ) : Layer :=
  { neurons :=
      (List.range numNeurons).map (fun _ => newNeuron fn)
        ++ (if addBias then [{ newNeuron fn with isBias := true }] else []) }

/-- Layer.connect (Layer.js lines 31-41): every neuron of `src` is connected
to every neuron of `tgt`, with weight `init fanIn` where `fanIn` is the
number of neurons of `src`.  Per the spec (section 4.4, Neuron.js not in
src) each created connection registers as outgoing on the source neuron and
incoming on the target neuron; connections are appended after any that are
already present. -/
def Layer.connect (init : ℕ → ℚ) (src tgt : Layer) : Layer × Layer :=
  let fanIn := src.neurons.length
  ({ neurons := mapIdxFrom (fun i n =>
      { n with outgoing :=
          n.outgoing ++ (List.range tgt.neurons.length).map (fun j =>
            { weight := init fanIn, source := i, target := j }) }) 0 src.neurons },
   { neurons := mapIdxFrom (fun j n =>
      { n with incoming :=
          n.incoming ++ (List.range src.neurons.length).map (fun i =>
            { weight := init fanIn, source := i, target := j }) }) 0 tgt.neurons })

/-- Modelled from the spec (section 4.5; Neuron.js is not in src):
a bias neuron outputs the constant 1; a neuron with no incoming connections
takes a supplied explicit input directly; otherwise the activation function
is applied to the weighted sum of the incoming sources' activation values.
`prev` is the list of activation values of the previous layer, which the
incoming connections index into. -/
def Neuron.activate (n : Neuron) (prev : List ℚ) (explicitInput : Option ℚ) : Neuron :=
  if n.isBias then { n with activationValue := 1 }
  else
    match explicitInput, n.incoming with
    | some v, [] => { n with activationValue := v }
    | _, _ =>
        { n with activationValue :=
            n.activationFn ((n.incoming.map (fun c => prev.getD c.source 0 * c.weight)).sum) }

/-- Layer.activate (Layer.js lines 48-52): activates every neuron
positionally; neuron `i` receives `values[i]` when a values array was given
(`undefined`, i.e. `none`, when absent or out of range).  Returns the updated
layer together with the list of resulting activation values. -/
def Layer.activate (l : Layer) (prev : List ℚ) (values : Option (List ℚ)) :
    Layer × List ℚ :=
  let ns := mapIdxFrom (fun i n => n.activate prev (values.bind (fun vs => vs[i]?))) 0 l.neurons
  (⟨ns⟩, ns.map (fun n => n.activationValue))

/-- An element of the JS array handed to the Network constructor: a Layer
instance, a plain number, or any other non-Layer value. -/
inductive JSElem where
  | layer (l : Layer)
  | num (n : ℤ)
  | other

/-- The JS value handed to the Network constructor: an array of elements, or
any non-array value. -/
inductive JSVal where
  | arr (elems : List JSElem)
  | nonArray

/-- The `layer instanceof Layer` test of Network.js line 35. -/
def JSElem.isLayer : JSElem → Bool
  | .layer _ => true
  | _ => false

/-- The Layer instances contained in an element list (after validation all
elements are layers, so this is the validated list itself). -/
def layersOf (elems : List JSElem) : List Layer :=
  elems.filterMap (fun e => match e with | .layer l => some l | _ => none)

/-- Network state (Network.js fields `output`, `error`, `errorFn`,
`allLayers`).  `inputLayer`, `hiddenLayers` and `outputLayer` are stored
aliases into `allLayers` in JS; since the layer sequence never changes after
construction they are modelled as derived accessors below. -/
structure Network where
  allLayers : List Layer
  errorFn : List ℚ → List ℚ → ℚ
  output : List ℚ
  error : ℚ

instance : Inhabited Network := ⟨⟨[], fun _ _ => 0, [], 0⟩⟩

/-- Network.js line 70: `this.inputLayer = _.first(this.allLayers)`. -/
def Network.inputLayer (net : Network) : Layer :=
  net.allLayers.headD default

/-- Network.js line 76: `_.slice(this.allLayers, 1, this.allLayers.length - 1)`. -/
def Network.hiddenLayers (net : Network) : List Layer :=
  (net.allLayers.drop 1).dropLast

/-- Network.js line 83: `this.outputLayer = _.last(this.allLayers)`. -/
def Network.outputLayer (net : Network) : Layer :=
  net.allLayers.getLastD default

/-- The connect loop of the Network constructor (Network.js lines 86-89)
from a current first layer `l`: `l` is connected to the next layer (when one
exists) and the loop continues with the updated next layer. -/
def connectFrom (init : ℕ → ℚ) (l : Layer) : List Layer → List Layer
  | [] => [l]
  | l2 :: rest =>
      (Layer.connect init l l2).1
        :: connectFrom init (Layer.connect init l l2).2 rest

/-- The connect loop of the Network constructor (Network.js lines 86-89):
each layer is connected to its immediate successor, in order.  The JS loop
mutates the layer objects in place; here the updated layers are threaded
through explicitly. -/
def connectAdjacent (init : ℕ → ℚ) : List Layer → List Layer
  | [] => []
  | l :: rest => connectFrom init l rest

/-- Network constructor (Network.js lines 30-90).  Throwing is modelled with
`Except.error`, so a failed construction produces no Network value at all.
The error function defaults to the mean-squared error of the (absent from
src) Error.js module; it and the weight initializer are explicit
parameters. -/
def Network.construct (layers : JSVal) (errorFn : List ℚ → List ℚ → ℚ)
    (init : ℕ → ℚ) : Except String Network :=
  match layers with
  | .nonArray => .error "Network() layerSizes must be an array"
  | .arr elems =>
      if elems.isEmpty || !(elems.all JSElem.isLayer) then
        .error "Network() every layers array element must be a Layer instance."
      else
        .ok { allLayers := connectAdjacent init (layersOf elems)
              errorFn := errorFn
              output := []
              error := 0 }

/-- List update at an index, modelling in-place mutation of one array slot. -/
def setAt {α : Type} : List α → ℕ → α → List α
  | [], _, _ => []
  | _ :: as, 0, v => v :: as
  | a :: as, n + 1, v => a :: setAt as n v

/-- Activates the layer at index `i` of the layer list: the previous layer's
activation values serve as the sources that incoming connections refer to.
Models the in-place activation of one layer during `Network.activate`. -/
def activateLayerAt (st : List Layer) (i : ℕ) (values : Option (List ℚ)) :
    List Layer × List ℚ :=
  let prev : List ℚ :=
    if i = 0 then [] else ((st.getD (i - 1) default).neurons.map (fun n => n.activationValue))
  let p := (st.getD i default).activate prev values
  (setAt st i p.1, p.2)

/-- Network.activate (Network.js lines 99-103): activates the input layer
with the given inputs, then each hidden layer in order, then the output
layer, storing and returning the output layer's activation vector.  The body
contains no throw site, so the result is always `Except.ok`. -/
def Network.activate (net : Network) (inputs : List ℚ) :
    Except String (Network × List ℚ) :=
  let n := net.allLayers.length
  let st1 := (activateLayerAt net.allLayers 0 (some inputs)).1
  let st2 := (List.range' 1 (n - 2)).foldl (fun st i => (activateLayerAt st i none).1) st1
  let p := activateLayerAt st2 (n - 1) none
  .ok ({ net with allLayers := p.1, output := p.2 }, p.2)

/-- JS subtraction `a - b` where `b` may be `undefined` (an out-of-range
array read); `none` stands for the non-number (NaN) result. -/
def jsSub (a : ℚ) (b : Option ℚ) : Option ℚ :=
  b.map (fun t => a - t)

/-- The output delta vector of Network.backprop (Network.js lines 115-117):
`_.map(this.output, (actVal, j) => actVal - targetOutput[j])`, with the
index threaded explicitly. -/
def outputDelta : List ℚ → ℕ → List ℚ → List (Option ℚ)
  | [], _, _ => []
  | a :: rest, j, tgt => jsSub a tgt[j]? :: outputDelta rest (j + 1) tgt

/-- One layer-level backprop invocation made by Network.backprop.
Layer.backprop itself is not among the provided sources (the provided
Layer.js has no such method), so Network.backprop is modelled by the exact
sequence of layer calls it makes: `outputCall delta` for
`this.outputLayer.backprop(delta)`, `hiddenCall i` for
`this.hiddenLayers[i].backprop()`, and `inputCall` for a (never occurring)
`this.inputLayer.backprop(...)`. -/
inductive BackpropCall where
  | outputCall (delta : List (Option ℚ))
  | hiddenCall (i : ℕ)
  | inputCall
deriving DecidableEq

/-- Network.backprop (Network.js lines 111-124): sets `error` via the error
function, computes the output delta vector, then emits the output-layer call
followed by the hidden-layer calls for indices `hiddenLayers.length - 1`
down to `0`. -/
def Network.backprop (net : Network) (targetOutput : List ℚ) :
    Network × List BackpropCall :=
  ({ net with error := net.errorFn targetOutput net.output },
   BackpropCall.outputCall (outputDelta net.output 0 targetOutput)
     :: (List.range net.hiddenLayers.length).reverse.map BackpropCall.hiddenCall)

/-- ACTIVATION.rationalTanh (ACTIVATION.js lines 17-25): short-circuits to
-1 below -3 and to 1 above 3, otherwise evaluates the rational
approximation. -/
def ACTIVATION.rationalTanh (x : ℚ) : ℚ :=
  if x < -3 then -1
  else if x > 3 then 1
  else x * (27 + x * x) / (27 + 9 * x * x)

/-- ACTIVATION.hyperbolic (ACTIVATION.js lines 64-67), translated with the
source's operator precedence kept intact:
`Math.pow(Math.E, x) - Math.pow(Math.E, -x) / Math.pow(Math.E, x) +
Math.pow(Math.E, -x)` parses as `e^x - (e^(-x) / e^x) + e^(-x)`. -/
noncomputable def ACTIVATION.hyperbolic (x : ℝ) : ℝ :=
  Real.exp x - Real.exp (-x) / Real.exp x + Real.exp (-x)

/-- Reference/aliasing model for the constructor's array handling
(Network.js lines 64-83).  A JS array of layer objects is a heap cell
holding a list of layer identities; `constructRefs` reads the caller's
array, allocates a fresh cell for `this.allLayers = [...layers]` (the spread
clone), and captures first / interior slice / last of the contents read at
construction time. -/
abbrev LayerId := ℕ

/-- A heap of JS arrays of layer references, indexed by position. -/
abbrev Heap := List (List LayerId)

/-- The array-valued fields of a constructed Network, at the reference
level. -/
structure NetRefs where
  allLayersRef : ℕ
  inputLayerRef : Option LayerId
  hiddenLayerRefs : List LayerId
  outputLayerRef : Option LayerId

/-- The constructor's array handling: clone the caller's array into a fresh
heap cell and derive input / hidden / output from the cloned contents. -/
def constructRefs (heap : Heap) (callerRef : ℕ) : Heap × NetRefs :=
  let contents := heap.getD callerRef []
  (heap ++ [contents],
   { allLayersRef := heap.length
     inputLayerRef := contents.head?
     hiddenLayerRefs := (contents.drop 1).dropLast
     outputLayerRef := contents.getLast? })

/-- In-place mutation of the array stored at `r` (covers element addition,
removal and reordering: the cell's contents are replaced wholesale). -/
def mutateArray (heap : Heap) (r : ℕ) (newContents : List LayerId) : Heap :=
  setAt heap r newContents

/-- A placeholder error function for concrete test networks (the claims
below do not depend on the error function's value). -/
def zeroErr : List ℚ → List ℚ → ℚ := fun _ _ => 0

/-- A deterministic stand-in for the weight initializer in concrete test
networks: every connection gets weight 1. -/
def oneInit : ℕ → ℚ := fun _ => 1

/-- A concrete two-neuron layer with no connections, as a caller would
freshly build it. -/
def layerA : Layer := Layer.construct 2 false (fun x => x)

/-- A concrete one-neuron layer with no connections. -/
def layerB : Layer := Layer.construct 1 false (fun x => x)

/-- The network built from `layerA` and `layerB`. -/
def netAB : Network :=
  ((Network.construct (.arr [.layer layerA, .layer layerB]) zeroErr oneInit).toOption).getD default

/-- A network state after some activation, used to instantiate backprop. -/
def netOut : Network :=
  { allLayers := [], errorFn := zeroErr, output := [1, 2], error := 0 }

/-! Helper lemmas. -/

/-- The length of the output delta vector equals the length of the stored
output vector. -/
theorem outputDelta_length (out : List ℚ) (s : ℕ) (tgt : List ℚ) :
    (outputDelta out s tgt).length = out.length := by
  induction out generalizing s with
  | nil => rfl
  | cons a t ih => simp [outputDelta, ih]

/-- Entry `j` of the output delta vector is the JS subtraction of the
corresponding target entry from the corresponding output entry. -/
theorem outputDelta_getD (out : List ℚ) (s : ℕ) (tgt : List ℚ) (j : ℕ)
    (hj : j < out.length) :
    (outputDelta out s tgt).getD j none = jsSub (out.getD j 0) tgt[(s + j)]? := by
  induction out generalizing s j with
  | nil => simp at hj
  | cons a t ih =>
    cases j with
    | zero => simp [outputDelta]
    | succ n =>
      have harith : s + 1 + n = s + (n + 1) := by omega
      simp only [outputDelta, List.getD_cons_succ]
      rw [ih (s + 1) n (by simpa using hj), harith]

/-- setAt preserves the length of the list. -/
theorem setAt_length {α : Type} (l : List α) (i : ℕ) (v : α) :
    (setAt l i v).length = l.length := by
  induction l generalizing i with
  | nil => simp [setAt]
  | cons a t ih => cases i <;> simp [setAt, ih]

/-- setAt at an index inside the left part of an append only touches the
left part. -/
theorem setAt_append_left {α : Type} (l1 l2 : List α) (i : ℕ) (v : α)
    (h : i < l1.length) :
    setAt (l1 ++ l2) i v = setAt l1 i v ++ l2 := by
  induction l1 generalizing i with
  | nil => simp at h
  | cons a t ih =>
    cases i with
    | zero => simp [setAt]
    | succ n =>
      simp only [List.cons_append, setAt, List.cons.injEq, true_and]
      exact ih n (by simpa using h)

/-- Reading the appended cell of a one-element append. -/
theorem getD_append_length {α : Type} (l : List α) (c : α) (d : α) :
    (l ++ [c]).getD l.length d = c := by
  induction l with
  | nil => rfl
  | cons a t ih => simp

/-- Indexed map preserves length. -/
theorem mapIdxFrom_length {α β : Type} (f : ℕ → α → β) (s : ℕ) (l : List α) :
    (mapIdxFrom f s l).length = l.length := by
  induction l generalizing s with
  | nil => rfl
  | cons a t ih => simp [mapIdxFrom, ih]

/-- Reading an in-range entry of an indexed map. -/
theorem mapIdxFrom_getD {α β : Type} (f : ℕ → α → β) (s : ℕ) (l : List α) (k : ℕ)
    (hk : k < l.length) (d : β) (d0 : α) :
    (mapIdxFrom f s l).getD k d = f (s + k) (l.getD k d0) := by
  induction l generalizing s k with
  | nil => simp at hk
  | cons a t ih =>
    cases k with
    | zero => simp [mapIdxFrom]
    | succ n =>
      simp only [mapIdxFrom, List.getD_cons_succ]
      rw [ih (s + 1) n (by simpa using hk), show s + (n + 1) = s + 1 + n from by omega]

/-- An in-range getD does not depend on the fallback value. -/
theorem getD_in_range_default {α : Type} (l : List α) (n : ℕ) (h : n < l.length)
    (d d' : α) : l.getD n d = l.getD n d' := by
  rw [List.getD_eq_getElem?_getD, List.getD_eq_getElem?_getD, List.getElem?_eq_getElem h]
  rfl

/-- Connecting preserves the source layer's neuron count. -/
theorem connect_src_neurons_length (init : ℕ → ℚ) (src tgt : Layer) :
    ((Layer.connect init src tgt).1).neurons.length = src.neurons.length := by
  simp [Layer.connect, mapIdxFrom_length]

/-- Connecting preserves the target layer's neuron count. -/
theorem connect_tgt_neurons_length (init : ℕ → ℚ) (src tgt : Layer) :
    ((Layer.connect init src tgt).2).neurons.length = tgt.neurons.length := by
  simp [Layer.connect, mapIdxFrom_length]

/-- Connecting appends one outgoing connection per target neuron to every
source neuron. -/
theorem connect_src_outgoing (init : ℕ → ℚ) (src tgt : Layer) (k : ℕ)
    (hk : k < src.neurons.length) :
    (((Layer.connect init src tgt).1).neurons.getD k default).outgoing.length
      = (src.neurons.getD k default).outgoing.length + tgt.neurons.length := by
  simp only [Layer.connect]
  rw [mapIdxFrom_getD _ _ _ _ hk _ default]
  simp

/-- Connecting does not change the target layer's neurons' outgoing
connections. -/
theorem connect_tgt_outgoing (init : ℕ → ℚ) (src tgt : Layer) (j : ℕ) :
    (((Layer.connect init src tgt).2).neurons.getD j default).outgoing
      = (tgt.neurons.getD j default).outgoing := by
  by_cases hj : j < tgt.neurons.length
  · simp only [Layer.connect]
    rw [mapIdxFrom_getD _ _ _ _ hj _ default]
  · have h1 : tgt.neurons.length ≤ j := by omega
    have h2 : ((Layer.connect init src tgt).2).neurons.length ≤ j := by
      rw [connect_tgt_neurons_length]; omega
    rw [List.getD_eq_default _ _ h1, List.getD_eq_default _ _ h2]

/-- The connect loop preserves every layer's neuron count. -/
theorem connectFrom_counts (init : ℕ → ℚ) :
    ∀ (rest : List Layer) (l : Layer) (i : ℕ),
      ((connectFrom init l rest).getD i default).neurons.length
        = (((l :: rest).getD i default)).neurons.length := by
  intro rest
  induction rest with
  | nil => intro l i; rfl
  | cons l2 t ih =>
    intro l i
    cases i with
    | zero =>
      simp only [connectFrom, List.getD_cons_zero]
      exact connect_src_neurons_length init l l2
    | succ n =>
      simp only [connectFrom, List.getD_cons_succ]
      rw [ih (Layer.connect init l l2).2 n]
      cases n with
      | zero =>
        simp only [List.getD_cons_zero]
        exact connect_tgt_neurons_length init l l2
      | succ m => rfl

/-- In the connect loop's result, every neuron of a layer that has a
successor has gained exactly one outgoing connection per successor-layer
neuron. -/
theorem connectFrom_outgoing (init : ℕ → ℚ) :
    ∀ (rest : List Layer) (l : Layer) (i k : ℕ),
      i + 1 < (l :: rest).length →
      k < ((l :: rest).getD i default).neurons.length →
      (((connectFrom init l rest).getD i default).neurons.getD k default).outgoing.length
        = (((l :: rest).getD i default).neurons.getD k default).outgoing.length
          + ((l :: rest).getD (i + 1) default).neurons.length := by
  intro rest
  induction rest with
  | nil =>
    intro l i k hi hk
    simp only [List.length_cons, List.length_nil] at hi
    omega
  | cons l2 t ih =>
    intro l i k hi hk
    cases i with
    | zero =>
      simp only [connectFrom, List.getD_cons_zero] at hk ⊢
      exact connect_src_outgoing init l l2 k hk
    | succ n =>
      simp only [connectFrom, List.getD_cons_succ] at hk ⊢
      have hi2 : n + 1 < ((Layer.connect init l l2).2 :: t).length := by
        simp only [List.length_cons] at hi ⊢
        simpa using hi
      have hk2 : k < (((Layer.connect init l l2).2 :: t).getD n default).neurons.length := by
        cases n with
        | zero =>
          simp only [List.getD_cons_zero] at hk ⊢
          rw [connect_tgt_neurons_length]
          exact hk
        | succ m => exact hk
      rw [ih (Layer.connect init l l2).2 n k hi2 hk2]
      cases n with
      | zero =>
        simp only [List.getD_cons_zero]
        rw [connect_tgt_outgoing]
        simp [List.getD_cons_succ]
      | succ m => rfl

/-- A Layer's activation preserves its neuron count. -/
theorem layer_activate_neurons_length (l : Layer) (prev : List ℚ)
    (v : Option (List ℚ)) :
    ((l.activate prev v).1).neurons.length = l.neurons.length := by
  simp [Layer.activate, mapIdxFrom_length]

/-- A Layer's activation returns one output value per neuron. -/
theorem layer_activate_out_length (l : Layer) (prev : List ℚ)
    (v : Option (List ℚ)) :
    ((l.activate prev v).2).length = l.neurons.length := by
  simp [Layer.activate, mapIdxFrom_length]

/-- setAt at an out-of-range index leaves the list unchanged. -/
theorem setAt_oob {α : Type} (l : List α) (i : ℕ) (v : α) (h : l.length ≤ i) :
    setAt l i v = l := by
  induction l generalizing i with
  | nil => rfl
  | cons a t ih =>
    cases i with
    | zero => simp at h
    | succ n => simp only [setAt, List.cons.injEq, true_and]; exact ih n (by simpa using h)

/-- Reading the slot just written by setAt. -/
theorem getD_setAt_self {α : Type} (l : List α) (i : ℕ) (v : α) (d : α)
    (h : i < l.length) : (setAt l i v).getD i d = v := by
  induction l generalizing i with
  | nil => simp at h
  | cons a t ih =>
    cases i with
    | zero => rfl
    | succ n => exact ih n (by simpa using h)

/-- Reading a slot other than the one written by setAt. -/
theorem getD_setAt_other {α : Type} (l : List α) (i k : ℕ) (v : α) (d : α)
    (h : i ≠ k) : (setAt l i v).getD k d = l.getD k d := by
  induction l generalizing i k with
  | nil => rfl
  | cons a t ih =>
    cases i with
    | zero =>
      cases k with
      | zero => exact absurd rfl h
      | succ m => rfl
    | succ n =>
      cases k with
      | zero => rfl
      | succ m => exact ih n m (by omega)

/-- Activating one layer in place preserves every layer's neuron count. -/
theorem activateLayerAt_counts (st : List Layer) (i : ℕ) (v : Option (List ℚ))
    (k : ℕ) :
    (((activateLayerAt st i v).1).getD k default).neurons.length
      = (st.getD k default).neurons.length := by
  simp only [activateLayerAt]
  by_cases hik : i = k
  · subst hik
    by_cases hlen : i < st.length
    · rw [getD_setAt_self _ _ _ _ hlen]
      exact layer_activate_neurons_length _ _ _
    · rw [setAt_oob _ _ _ (by omega)]
  · rw [getD_setAt_other _ _ _ _ _ hik]

/-- Folding layer activations over a list of indices preserves every
layer's neuron count. -/
theorem foldl_activate_counts (is : List ℕ) (st : List Layer) (k : ℕ) :
    (((is.foldl (fun st i => (activateLayerAt st i none).1) st)).getD k default).neurons.length
      = (st.getD k default).neurons.length := by
  induction is generalizing st with
  | nil => rfl
  | cons i t ih =>
    simp only [List.foldl_cons]
    rw [ih, activateLayerAt_counts]

/-- getLastD coincides with getD at the last index. -/
theorem getLastD_eq_getD {α : Type} (l : List α) (d : α) :
    l.getLastD d = l.getD (l.length - 1) d := by
  induction l generalizing d with
  | nil => rfl
  | cons a t ih =>
    cases t with
    | nil => rfl
    | cons b t2 =>
      show (b :: t2).getLastD a = (a :: b :: t2).getD (t2.length + 1) d
      rw [List.getD_cons_succ, ih a]
      simp only [List.length_cons, Nat.add_sub_cancel]
      exact getD_in_range_default _ _ (by simp) _ _

/-! Claim theorems. -/

/-- Claim C1: for every target vector (of the stored output's length) and
every network state, Network.backprop computes the output-layer delta vector
element-wise as output[j] minus target[j], passes it to the output layer's
backprop, then calls backprop with no argument on every hidden layer in
reverse order (last hidden layer first), and never calls backprop on the
input layer. -/
theorem backprop_order (net : Network) (target : List ℚ)
    (h : target.length = net.output.length) :
    ∃ delta : List (Option ℚ),
      (net.backprop target).2
        = BackpropCall.outputCall delta
            :: (List.range net.hiddenLayers.length).reverse.map BackpropCall.hiddenCall
      ∧ delta.length = net.output.length
      ∧ (∀ j, j < net.output.length →
          delta.getD j none = some (net.output.getD j 0 - target.getD j 0))
      ∧ (∀ c ∈ (net.backprop target).2, c ≠ BackpropCall.inputCall) := by
  refine ⟨outputDelta net.output 0 target, rfl, outputDelta_length _ _ _, ?_, ?_⟩
  · intro j hj
    rw [outputDelta_getD _ _ _ _ hj]
    have hj' : j < target.length := by omega
    rw [show (0 + j) = j by omega, List.getElem?_eq_getElem hj']
    simp [jsSub, List.getD_eq_getElem?_getD, List.getElem?_eq_getElem hj',
      List.getElem?_eq_getElem hj]
  · intro c hc
    simp only [Network.backprop, List.mem_cons, List.mem_map] at hc
    rcases hc with rfl | ⟨i, _, rfl⟩ <;> simp

/-- Witness for C1 at a concrete network state and target. -/
theorem backprop_order_witness :
    (([(0 : ℚ), 0]).length = netOut.output.length)
    ∧ ∃ delta : List (Option ℚ),
        (netOut.backprop [0, 0]).2
          = BackpropCall.outputCall delta
              :: (List.range netOut.hiddenLayers.length).reverse.map BackpropCall.hiddenCall
        ∧ delta.length = netOut.output.length
        ∧ (∀ j, j < netOut.output.length →
            delta.getD j none = some (netOut.output.getD j 0 - ([0, 0] : List ℚ).getD j 0))
        ∧ (∀ c ∈ (netOut.backprop [0, 0]).2, c ≠ BackpropCall.inputCall) :=
  ⟨by decide, backprop_order netOut [0, 0] (by decide)⟩

/-- Claim C2 counterexample: the code performs no shape validation in
Network.activate.  For the concrete two-input network `netAB` and the
one-element input vector [5] (length mismatch), activate succeeds instead of
failing with an InvalidInput error. -/
theorem activate_no_shape_check :
    Network.construct (.arr [JSElem.layer layerA, JSElem.layer layerB]) zeroErr oneInit
        = .ok netAB
    ∧ (([(5 : ℚ)]).length ≠ netAB.inputLayer.neurons.length)
    ∧ (netAB.activate [5]).isOk = true :=
  ⟨rfl, by decide, by decide⟩

/-- Claim C2 (amended): Network.activate performs no input-length
validation; on an input vector whose length differs from the input layer's
neuron count it does not fail but proceeds and returns a result. -/
theorem activate_never_fails (net : Network) (inputs : List ℚ)
    (_h : inputs.length ≠ net.inputLayer.neurons.length) :
    ∃ p, net.activate inputs = .ok p :=
  ⟨_, rfl⟩

/-- Witness for the amended C2 at a concrete network and mismatched
input. -/
theorem activate_never_fails_witness :
    (([(5 : ℚ)]).length ≠ netAB.inputLayer.neurons.length)
    ∧ ∃ p, netAB.activate [5] = .ok p :=
  ⟨by decide, activate_never_fails netAB [5] (by decide)⟩

/-- Claim C3 counterexample: constructing a Network from an array of
positive integers (plain neuron counts) does not succeed; the constructor
rejects any element that is not a Layer instance. -/
theorem construct_from_sizes_rejected :
    (Network.construct (.arr [JSElem.num 2, JSElem.num 1]) zeroErr oneInit).isOk = false := by
  decide

/-- Claim C3 (amended): the Network constructor supports a single
construction mode: a non-empty array of pre-built Layer instances succeeds,
while an array of plain neuron counts always fails. -/
theorem construct_single_mode :
    (∀ (l : Layer) (ls : List Layer) (ef : List ℚ → List ℚ → ℚ) (init : ℕ → ℚ),
        (Network.construct (.arr ((l :: ls).map JSElem.layer)) ef init).isOk = true)
    ∧ (∀ (ns : List ℤ) (ef : List ℚ → List ℚ → ℚ) (init : ℕ → ℚ),
        (Network.construct (.arr (ns.map JSElem.num)) ef init).isOk = false) := by
  constructor
  · intro l ls ef init
    have hall : ((l :: ls).map JSElem.layer).all JSElem.isLayer = true := by
      rw [List.all_eq_true]
      intro e he
      simp only [List.mem_map] at he
      obtain ⟨x, _, rfl⟩ := he
      rfl
    simp [Network.construct, hall, JSElem.isLayer, Except.isOk, Except.toBool]
  · intro ns ef init
    cases ns with
    | nil => rfl
    | cons n t =>
      have hall : ((n :: t).map JSElem.num).all JSElem.isLayer = false := by
        rw [List.all_eq_false]
        exact ⟨JSElem.num n, by simp, by simp [JSElem.isLayer]⟩
      simp [Network.construct, hall, JSElem.isLayer, Except.isOk, Except.toBool]

/-- Claim C4: the constructor fails for a non-array argument, an empty
array, and any array holding a non-Layer element; it succeeds on every
non-empty array of Layer instances.  A failed construction yields no Network
value at all. -/
theorem construct_validation :
    (∀ (ef : List ℚ → List ℚ → ℚ) (init : ℕ → ℚ),
        (Network.construct .nonArray ef init).isOk = false)
    ∧ (∀ (ef : List ℚ → List ℚ → ℚ) (init : ℕ → ℚ),
        (Network.construct (.arr []) ef init).isOk = false)
    ∧ (∀ (elems : List JSElem) (ef : List ℚ → List ℚ → ℚ) (init : ℕ → ℚ),
        (∃ e ∈ elems, e.isLayer = false) →
        (Network.construct (.arr elems) ef init).isOk = false)
    ∧ (∀ (elems : List JSElem) (ef : List ℚ → List ℚ → ℚ) (init : ℕ → ℚ),
        elems ≠ [] → (∀ e ∈ elems, e.isLayer = true) →
        (Network.construct (.arr elems) ef init).isOk = true) := by
  refine ⟨fun ef init => rfl, fun ef init => rfl, ?_, ?_⟩
  · intro elems ef init h
    have hall : elems.all JSElem.isLayer = false := by
      rw [List.all_eq_false]
      obtain ⟨e, he, hne⟩ := h
      exact ⟨e, he, by simp [hne]⟩
    simp [Network.construct, hall, Except.isOk, Except.toBool]
  · intro elems ef init hne hall
    have hall2 : elems.all JSElem.isLayer = true := List.all_eq_true.mpr hall
    have hemp : elems.isEmpty = false := by
      cases elems with
      | nil => exact absurd rfl hne
      | cons a t => rfl
    simp [Network.construct, hall2, hemp, Except.isOk, Except.toBool]

/-- Witness for C4: a concrete rejected array and a concrete accepted
array. -/
theorem construct_validation_witness :
    ((Network.construct (.arr [JSElem.num 2]) zeroErr oneInit).isOk = false)
    ∧ ((Network.construct (.arr [JSElem.layer layerA]) zeroErr oneInit).isOk = true) :=
  ⟨construct_validation.2.2.1 [JSElem.num 2] zeroErr oneInit
      ⟨JSElem.num 2, by simp, rfl⟩,
   construct_validation.2.2.2 [JSElem.layer layerA] zeroErr oneInit
      (by simp) (by intro e he; simp only [List.mem_singleton] at he; subst he; rfl)⟩

/-- Claim C7: rationalTanh returns exactly -1 below -3, exactly 1 above 3,
and the rational approximation on [-3, 3]. -/
theorem rationalTanh_piecewise (x : ℚ) :
    (x < -3 → ACTIVATION.rationalTanh x = -1)
    ∧ (3 < x → ACTIVATION.rationalTanh x = 1)
    ∧ (-3 ≤ x → x ≤ 3 →
        ACTIVATION.rationalTanh x = x * (27 + x * x) / (27 + 9 * x * x)) := by
  refine ⟨fun h => ?_, fun h => ?_, fun h1 h2 => ?_⟩ <;> unfold ACTIVATION.rationalTanh
  · rw [if_pos h]
  · rw [if_neg (by linarith), if_pos h]
  · rw [if_neg (by linarith), if_neg (by linarith)]

/-- Witness for C7 at inputs in each of the three regions. -/
theorem rationalTanh_piecewise_witness :
    ((-4 : ℚ) < -3 ∧ ACTIVATION.rationalTanh (-4) = -1)
    ∧ ((3 : ℚ) < 4 ∧ ACTIVATION.rationalTanh 4 = 1)
    ∧ ((-3 : ℚ) ≤ 2 ∧ (2 : ℚ) ≤ 3
        ∧ ACTIVATION.rationalTanh 2 = 2 * (27 + 2 * 2) / (27 + 9 * 2 * 2)) :=
  ⟨⟨by norm_num, (rationalTanh_piecewise (-4)).1 (by norm_num)⟩,
   ⟨by norm_num, (rationalTanh_piecewise 4).2.1 (by norm_num)⟩,
   ⟨by norm_num, by norm_num,
    (rationalTanh_piecewise 2).2.2 (by norm_num) (by norm_num)⟩⟩

/-- Claim C8 (code bug): at input 0 the hyperbolic activation evaluates to
exactly 1, which is not strictly inside the documented range (-1, +1); the
source's expression lacks the parentheses of the hyperbolic tangent. -/
theorem hyperbolic_out_of_range :
    ACTIVATION.hyperbolic 0 = 1 ∧ ACTIVATION.hyperbolic 0 ∉ Set.Ioo (-1 : ℝ) 1 := by
  have h : ACTIVATION.hyperbolic 0 = 1 := by
    unfold ACTIVATION.hyperbolic
    norm_num
  refine ⟨h, ?_⟩
  rw [h]
  simp [Set.mem_Ioo]

/-- Claim C10: the constructor clones the caller's layers array, so
mutating the original array after construction leaves the network's
allLayers contents, and its input/hidden/output fields (captured at
construction), unchanged. -/
theorem construct_clones_layers_array (heap : Heap) (r : ℕ) (hr : r < heap.length)
    (newContents : List LayerId) :
    (mutateArray (constructRefs heap r).1 r newContents).getD
        (constructRefs heap r).2.allLayersRef [] = heap.getD r []
    ∧ (constructRefs heap r).2.inputLayerRef = (heap.getD r []).head?
    ∧ (constructRefs heap r).2.hiddenLayerRefs = ((heap.getD r []).drop 1).dropLast
    ∧ (constructRefs heap r).2.outputLayerRef = (heap.getD r []).getLast? := by
  refine ⟨?_, rfl, rfl, rfl⟩
  simp only [constructRefs, mutateArray]
  rw [setAt_append_left _ _ _ _ hr]
  have h1 : heap.length = (setAt heap r newContents).length :=
    (setAt_length heap r newContents).symm
  rw [h1, getD_append_length]

/-- Witness for C10 on a concrete one-array heap. -/
theorem construct_clones_layers_array_witness :
    (0 < ([[0, 1]] : Heap).length)
    ∧ ((mutateArray (constructRefs [[0, 1]] 0).1 0 [5]).getD
          (constructRefs [[0, 1]] 0).2.allLayersRef [] = ([[0, 1]] : Heap).getD 0 []
        ∧ (constructRefs [[0, 1]] 0).2.inputLayerRef = (([[0, 1]] : Heap).getD 0 []).head?
        ∧ (constructRefs [[0, 1]] 0).2.hiddenLayerRefs
            = ((([[0, 1]] : Heap).getD 0 []).drop 1).dropLast
        ∧ (constructRefs [[0, 1]] 0).2.outputLayerRef
            = (([[0, 1]] : Heap).getD 0 []).getLast?) :=
  ⟨by decide, construct_clones_layers_array [[0, 1]] 0 (by decide) [5]⟩

/-- Claim C5 counterexample: caller-supplied pre-built Layer instances do
not keep exactly the connections the caller gave them.  The fresh layer
`layerA` has no outgoing connections on its first neuron, but after
construction the corresponding neuron of the network's first layer has
one. -/
theorem prebuilt_layers_reconnected :
    Network.construct (.arr [JSElem.layer layerA, JSElem.layer layerB]) zeroErr oneInit
        = .ok netAB
    ∧ (layerA.neurons.getD 0 default).outgoing.length = 0
    ∧ ((netAB.allLayers.getD 0 default).neurons.getD 0 default).outgoing.length = 1 :=
  ⟨rfl, by decide, by decide⟩

/-- Claim C5 (amended): the Network constructor always connects consecutive
layers itself, including caller-supplied pre-built Layer instances: every
neuron of a layer with a successor gains exactly one outgoing connection per
successor-layer neuron, on top of the connections the caller gave it. -/
theorem construct_connects_all (elems : List JSElem) (ef : List ℚ → List ℚ → ℚ)
    (init : ℕ → ℚ) (net : Network)
    (h : Network.construct (.arr elems) ef init = .ok net)
    (i k : ℕ) (hi : i + 1 < (layersOf elems).length)
    (hk : k < ((layersOf elems).getD i default).neurons.length) :
    ((net.allLayers.getD i default).neurons.getD k default).outgoing.length
      = (((layersOf elems).getD i default).neurons.getD k default).outgoing.length
        + ((layersOf elems).getD (i + 1) default).neurons.length := by
  have hA : net.allLayers = connectAdjacent init (layersOf elems) := by
    simp only [Network.construct] at h
    by_cases hc : (elems.isEmpty || !(elems.all JSElem.isLayer)) = true
    · rw [if_pos hc] at h
      cases h
    · rw [if_neg hc] at h
      cases h
      rfl
  rw [hA]
  cases hls : layersOf elems with
  | nil => rw [hls] at hi; simp at hi
  | cons l rest =>
    rw [hls] at hi hk
    exact connectFrom_outgoing init rest l i k hi hk

/-- Witness for the amended C5 on the concrete two-layer network. -/
theorem construct_connects_all_witness :
    (0 + 1 < (layersOf [JSElem.layer layerA, JSElem.layer layerB]).length)
    ∧ (0 < ((layersOf [JSElem.layer layerA, JSElem.layer layerB]).getD 0 default).neurons.length)
    ∧ ((netAB.allLayers.getD 0 default).neurons.getD 0 default).outgoing.length
        = (((layersOf [JSElem.layer layerA, JSElem.layer layerB]).getD 0
              default).neurons.getD 0 default).outgoing.length
          + ((layersOf [JSElem.layer layerA, JSElem.layer layerB]).getD (0 + 1)
              default).neurons.length :=
  ⟨by decide, by decide,
   construct_connects_all [JSElem.layer layerA, JSElem.layer layerB] zeroErr oneInit netAB
     rfl 0 0 (by decide) (by decide)⟩

/-- Claim C6: for every validly constructed network and every input vector,
Network.activate succeeds and returns a vector whose length equals the
output layer's neuron count (the neurons of the last layer, bias included
when present). -/
theorem activate_output_length (elems : List JSElem) (ef : List ℚ → List ℚ → ℚ)
    (init : ℕ → ℚ) (net : Network)
    (_h : Network.construct (.arr elems) ef init = .ok net) (inputs : List ℚ) :
    ∃ p, net.activate inputs = .ok p
      ∧ (p.2).length = net.outputLayer.neurons.length := by
  refine ⟨_, rfl, ?_⟩
  simp only [Network.activate]
  have key : ∀ (st : List Layer) (i : ℕ),
      ((activateLayerAt st i none).2).length = (st.getD i default).neurons.length :=
    fun st i => layer_activate_out_length _ _ _
  rw [key, foldl_activate_counts, activateLayerAt_counts]
  rw [Network.outputLayer, getLastD_eq_getD]

/-- Witness for C6 on the concrete two-layer network. -/
theorem activate_output_length_witness :
    Network.construct (.arr [JSElem.layer layerA, JSElem.layer layerB]) zeroErr oneInit
        = .ok netAB
    ∧ ∃ p, netAB.activate [1, 2] = .ok p
        ∧ (p.2).length = netAB.outputLayer.neurons.length :=
  ⟨rfl,
   activate_output_length [JSElem.layer layerA, JSElem.layer layerB] zeroErr oneInit netAB
     rfl [1, 2]⟩

end Anny
